import Mathlib

/-!
Verification of the caejobdiary status-inference core.

This file gives a shallow embedding of the core modules of the
caejobdiary repository and proves properties of them:

* `utils/caefileio/keyvaluefile.py` — colon key-value line parsing
* `utils/caefileio/clusterscript.py` — cluster-script discovery
* `caejobdiary/utils/caefileio/joblogfile.py` — submission-log parsing
* `utils/caefileio/readme.py` — README parsing
* `utils/jobinfo/status.py` — the job-status resolver
* `caejobdiary/utils/jobinfo/poll.py` — new-job ingestion
* `utils/jobinfo/update.py` — the status refresher

The filesystem is modelled as a static snapshot (`FS`): a listing
function, a directory predicate and a file-content function.  Python
file lines are represented without their trailing newline characters;
where the source strips or appends newlines this is accounted for at
the use site.  Python exceptions that a function can raise past its
boundary are modelled in the return type.
-/

namespace CaeJobDiary

/-! ## Basic string helpers -/

/-- Does `needle` occur as a contiguous subsequence of the list? -/
def containsSeq (needle : List Char) : List Char → Bool
  | [] => needle.isPrefixOf []
  | c :: tl => needle.isPrefixOf (c :: tl) || containsSeq needle tl

/-- Python substring test `needle in hay`. -/
def substrOf (needle hay : String) : Bool :=
  containsSeq needle.toList hay.toList

/-- Python `s.split(sep)` for a one-character separator, on character
lists: splits at every occurrence, keeping empty segments. -/
def splitCh (sep : Char) : List Char → List (List Char)
  | [] => [[]]
  | c :: tl =>
    let r := splitCh sep tl
    if c = sep then [] :: r
    else
      match r with
      | h :: t => (c :: h) :: t
      | [] => [[c]]

/-- Last element of a nonempty list of segments (Python `split(...)[-1]`). -/
def lastSeg : List (List Char) → List Char
  | [] => []
  | [x] => x
  | _ :: y :: t => lastSeg (y :: t)

/-- Drop an expected literal prefix, or fail. -/
def dropPfx : List Char → List Char → Option (List Char)
  | [], cs => some cs
  | _ :: _, [] => none
  | p :: ps, c :: cs => if p = c then dropPfx ps cs else none

/-- Python `s.strip()`: drop whitespace from both ends. -/
def pyStrip (s : String) : String :=
  String.mk
    (((s.toList.dropWhile Char.isWhitespace).reverse.dropWhile
      Char.isWhitespace).reverse)

/-- Python `s.rstrip()`: drop whitespace from the right end. -/
def pyRStrip (s : String) : String :=
  String.mk (s.toList.reverse.dropWhile Char.isWhitespace).reverse

/-- Does the string start with the given literal prefix? -/
def startsWithL (pre s : String) : Bool := pre.toList.isPrefixOf s.toList

/-- Does the string end with the given literal suffix? -/
def endsWithL (suf s : String) : Bool := suf.toList.isSuffixOf s.toList

/-- Drop the first `n` characters of a string. -/
def strDropL (n : Nat) (s : String) : String := String.mk (s.toList.drop n)

/-- Drop the last `n` characters of a string. -/
def strDropR (n : Nat) (s : String) : String :=
  String.mk (s.toList.take (s.toList.length - n))

def isDigitCh (c : Char) : Bool := c.isDigit

def isLowerAlpha (c : Char) : Bool := 97 ≤ c.toNat && c.toNat ≤ 122

/-- Consume one expected character. -/
def eatChar (c : Char) : List Char → Option (List Char)
  | x :: xs => if x = c then some xs else none
  | [] => none

/-- Consume an expected literal string. -/
def eatStr (s : String) (cs : List Char) : Option (List Char) :=
  dropPfx s.toList cs

/-- Consume exactly `n` characters satisfying `p`. -/
def eatCount (p : Char → Bool) : Nat → List Char → Option (List Char)
  | 0, cs => some cs
  | _ + 1, [] => none
  | n + 1, c :: cs => if p c then eatCount p n cs else none

/-- Consume one digit and, greedily, an optional second digit
(the regex piece `\d` repeated once or twice followed by a non-digit). -/
def eatOneOrTwoDigits : List Char → Option (List Char)
  | [] => none
  | [c] => if isDigitCh c then some [] else none
  | c :: d :: cs =>
    if isDigitCh c then
      if isDigitCh d then some cs else some (d :: cs)
    else none

/-! ## Filename grammars (Python `re`)

Python `re.match` anchors at the start of the string; a final `$`
matches at the end of the string or just before a single trailing
newline, and `.` matches any character except a newline. -/

/-- The tail `.*$` of a Python regex applied to the remainder `cs`:
matches iff `cs`, minus one optional trailing newline, is newline-free. -/
def dotStarEnd (cs : List Char) : Bool :=
  let body := if cs.getLast? = some '\n' then cs.dropLast else cs
  ! body.contains '\n'

/-- Cluster-script filename pattern from
`utils/caefileio/clusterscript.py`
(`^<job_id>\.[a-z]{3}-[a-z]{3}\.[a-z]\d{2}[a-z]{2}\d{3}\.\d{1,2}\.sh$`,
for example `1234567.dyn-dmp.x99xx123.16.sh`). -/
def isClusterScriptName (job_id : Int) (name : String) : Bool :=
  let rest? := do
    let r ← eatStr (toString job_id) name.toList
    let r ← eatChar '.' r
    let r ← eatCount isLowerAlpha 3 r
    let r ← eatChar '-' r
    let r ← eatCount isLowerAlpha 3 r
    let r ← eatChar '.' r
    let r ← eatCount isLowerAlpha 1 r
    let r ← eatCount isDigitCh 2 r
    let r ← eatCount isLowerAlpha 2 r
    let r ← eatCount isDigitCh 3 r
    let r ← eatChar '.' r
    let r ← eatOneOrTwoDigits r
    let r ← eatChar '.' r
    let r ← eatStr "sh" r
    pure r
  match rest? with
  | some r => decide (r = []) || decide (r = ['\n'])
  | none => false

/-- Renamed-job-folder pattern as the code writes it,
`re.compile("^" + str(job_id) + "(?!.pending).*$")` in
`utils/jobinfo/status.py`: the dot in the lookahead is NOT escaped, so it
matches any character except a newline. -/
def renamedFolderMatch (job_id : Int) (name : String) : Bool :=
  match dropPfx (toString job_id).toList name.toList with
  | none => false
  | some rest =>
    let lookahead :=
      match rest with
      | c :: tl => (c != '\n') && "pending".toList.isPrefixOf tl
      | [] => false
    if lookahead then false else dotStarEnd rest

/-- Modelled from the spec: section 4.5(d) states the renamed-folder
pattern as `^<job_id>(?!\.pending).*$` with the dot escaped, so that only
a literal `.pending` continuation is excluded.  Kept separate from
`renamedFolderMatch` (the code's pattern) for comparison. -/
def renamedFolderMatchSpec (job_id : Int) (name : String) : Bool :=
  match dropPfx (toString job_id).toList name.toList with
  | none => false
  | some rest =>
    if ".pending".toList.isPrefixOf rest then false else dotStarEnd rest

/-- README filename pattern `^README\..*\.README$` from
`utils/caefileio/readme.py`. -/
def isReadmeFilename (name : String) : Bool :=
  if startsWithL "README." name then
    let rest := strDropL 7 name
    let body := if endsWithL "\n" rest then strDropR 1 rest else rest
    endsWithL ".README" body && ! (strDropR 7 body).toList.contains '\n'
  else false

/-! ## Filesystem snapshot -/

/-- Outcome of `os.listdir`, distinguishing the exception classes that
`get_job_status_and_job_dir_from_sub_dir` handles separately. -/
inductive ListDirResult
  | ok (entries : List String)
  | notADirectory
  | notFound
  | permissionDenied
  | otherOSError
deriving DecidableEq

/-- Errors of opening/reading a file that the sources catch. -/
inductive FileReadErr
  | notFound
  | permissionDenied
deriving DecidableEq

/-- A static filesystem snapshot: directory listings, the directory
predicate (`os.path.isdir`) and file contents as newline-stripped
lines. -/
structure FS where
  listdir : String → ListDirResult
  isdir : String → Bool
  readLines : String → Except FileReadErr (List String)

/-- `os.path.join` for the two-argument uses in the sources
(posix semantics: an absolute second component wins). -/
def joinPath (a b : String) : String :=
  if startsWithL "/" b then b
  else if a = "" then b
  else if endsWithL "/" a then a ++ b
  else a ++ "/" ++ b

/-! ## `utils/caefileio/keyvaluefile.py` -/

/-- Split a character list at the first occurrence of `sep`
(Python `split(sep, maxsplit=1)` when a separator is present). -/
def splitFirst (sep : Char) : List Char → Option (List Char × List Char)
  | [] => none
  | c :: tl =>
    if c = sep then some ([], tl)
    else
      match splitFirst sep tl with
      | some (a, b) => some (c :: a, b)
      | none => none

/-- `get_value_string_from_line`: strip the line, split at the first
colon, return the trimmed remainder; empty string if there is no colon. -/
def get_value_string_from_line (line : String) : String :=
  match splitFirst ':' (pyStrip line).toList with
  | some (_, after) => pyStrip (String.mk after)
  | none => ""

/-! ## `utils/caefileio/clusterscript.py` -/

/-- `get_cluster_script_from_list`: first filename matching the
cluster-script pattern for the job id, if any. -/
def get_cluster_script_from_list (job_id : Int) (file_list : List String) :
    Option String :=
  (file_list.filter (isClusterScriptName job_id)).head?

/-- `get_cluster_scratch_dir_from_script`: read the first line of the
script; if it contains `cd`, take the second space-separated token,
strip it and drop one trailing `*`; a missing or unreadable file, or an
empty resulting path, yields `none`. -/
def get_cluster_scratch_dir_from_script (fs : FS) (path : String) :
    Option String :=
  match fs.readLines path with
  | .error _ => none
  | .ok lines =>
    let line := lines.headD ""
    let path? :=
      if substrOf "cd" line then
        match (splitCh ' ' line.toList).map String.mk with
        | _ :: second :: _ =>
          let s := pyStrip second
          some (if endsWithL "*" s then strDropR 1 s else s)
        | _ => none
      else none
    match path? with
    | some s => if s = "" then none else some s
    | none => none

/-! ## `utils/jobinfo/status.py` -/

/-- The `Job.JOB_STATUS_*` short strings from `diary/models.py`. -/
def JOB_STATUS_NONE : String := "non"

def JOB_STATUS_PENDING : String := "pen"

def JOB_STATUS_RUNNING : String := "run"

def JOB_STATUS_FINISHED : String := "fin"

def JOB_STATUS_NORMAL_TERMINATION : String := "nor"

def JOB_STATUS_ERROR_TERMINATION : String := "err"

def JOB_STATUS_OTHER_TERMINATION : String := "oth"

/-- `get_renamed_job_folder_from_list`: first filename matching the
renamed-folder pattern, if any. -/
def get_renamed_job_folder_from_list (job_id : Int) (file_list : List String) :
    Option String :=
  (file_list.filter (renamedFolderMatch job_id)).head?

/-- One loop iteration of `get_job_status_and_job_dir_from_sub_dir`:
list `sub_dir` and evaluate the candidate chain
(exact finished folder, cluster script, pending folder, renamed folder).
`none` means the iteration found no candidate and left
`job_status = None`; `some (status, job_dir?)` is a found candidate
(whose `job_dir` the cluster-script branch may have failed to resolve). -/
def checkSubDirOnce (fs : FS) (job_id : Int) (sub_dir : String) :
    Option (String × Option String) :=
  match fs.listdir sub_dir with
  | .ok sub_dir_content =>
    let finished_job_foldername := toString job_id
    let pending_job_foldername := toString job_id ++ ".pending"
    if sub_dir_content.contains finished_job_foldername then
      some (JOB_STATUS_FINISHED, some (joinPath sub_dir finished_job_foldername))
    else
      match get_cluster_script_from_list job_id sub_dir_content with
      | some script =>
        some (JOB_STATUS_RUNNING,
          get_cluster_scratch_dir_from_script fs (joinPath sub_dir script))
      | none =>
        if sub_dir_content.contains pending_job_foldername then
          some (JOB_STATUS_PENDING, some (joinPath sub_dir pending_job_foldername))
        else
          match get_renamed_job_folder_from_list job_id sub_dir_content with
          | some renamed =>
            if renamed = "" then none
            else
              let p := joinPath sub_dir renamed
              if fs.isdir p then some (JOB_STATUS_FINISHED, some p) else none
          | none => none
  | _ => none

/-- The `while checks_counter < checks_limit and job_status is None` loop:
repeat the per-iteration check until a candidate appears or the limit is
reached; also returns the final `checks_counter`. -/
def runChecks (fs : FS) (job_id : Int) (sub_dir : String) :
    Nat → Nat → Option (String × Option String) × Nat
  | 0, done => (none, done)
  | n + 1, done =>
    match checkSubDirOnce fs job_id sub_dir with
    | some c => (some c, done + 1)
    | none => runChecks fs job_id sub_dir n (done + 1)

/-- `get_job_status_and_job_dir_from_sub_dir` together with the number of
performed checks: up to 3 checks when `recent`, otherwise one, then the
single post-loop validation that the found `job_dir` is a directory. -/
def resolveWithCount (fs : FS) (job_id : Int) (sub_dir : String)
    (recent : Bool) : (String × Option String) × Nat :=
  let checks_limit := if recent then 3 else 1
  match runChecks fs job_id sub_dir checks_limit 0 with
  | (some (job_status, some job_dir), cnt) =>
    if fs.isdir job_dir then ((job_status, some job_dir), cnt)
    else ((JOB_STATUS_NONE, none), cnt)
  | (some (_, none), cnt) => ((JOB_STATUS_NONE, none), cnt)
  | (none, cnt) => ((JOB_STATUS_NONE, none), cnt)

/-- `get_job_status_and_job_dir_from_sub_dir` from
`utils/jobinfo/status.py`. -/
def get_job_status_and_job_dir_from_sub_dir (fs : FS) (job_id : Int)
    (sub_dir : String) (recent : Bool) : String × Option String :=
  (resolveWithCount fs job_id sub_dir recent).1

/-! ## Datetimes and `datetime.strptime`

`strptime` is modelled closely after CPython `_strptime`: each directive
matches a bounded digit group with a range check (`%Y` exactly four
digits, `%m`/`%d`/`%H`/`%M`/`%S` one or two digits in range), literal
characters match themselves, a whitespace run in the format matches a
whitespace run in the data, and the whole string must be consumed.
Only ASCII digits are considered.  A parsed calendar-day overflow
(e.g. February 30) is rejected, as `datetime()` construction rejects it. -/

deriving instance DecidableEq for Except

structure PyDateTime where
  year : Nat
  month : Nat
  day : Nat
  hour : Nat
  minute : Nat
  second : Nat
deriving DecidableEq

/-- Numeric value of a list of ASCII digits. -/
def digitsVal (cs : List Char) : Nat :=
  cs.foldl (fun a c => a * 10 + (c.toNat - 48)) 0

/-- Split a leading run of digits from the rest. -/
def spanDigits : List Char → List Char × List Char
  | [] => ([], [])
  | c :: tl =>
    if isDigitCh c then
      let (d, r) := spanDigits tl
      (c :: d, r)
    else ([], c :: tl)

/-- Consume a one- or two-digit field whose value lies in `[lo, hi]`. -/
def eatNum2 (lo hi : Nat) (cs : List Char) : Option (Nat × List Char) :=
  let (ds, r) := spanDigits cs
  if ds.length = 1 ∨ ds.length = 2 then
    let v := digitsVal ds
    if lo ≤ v ∧ v ≤ hi then some (v, r) else none
  else none

/-- Consume an exactly-four-digit year (`%Y`). -/
def eatYear (cs : List Char) : Option (Nat × List Char) :=
  let (ds, r) := spanDigits cs
  if ds.length = 4 then some (digitsVal ds, r) else none

def isLeapYear (y : Nat) : Bool :=
  (y % 4 = 0 && y % 100 ≠ 0) || y % 400 = 0

def daysInMonth (y m : Nat) : Nat :=
  if m = 2 then (if isLeapYear y then 29 else 28)
  else if m = 4 ∨ m = 6 ∨ m = 9 ∨ m = 11 then 30
  else 31

/-- `datetime.strptime(s, "%Y-%m-%d__%H:%M:%S")`, the `Sub-Date` format
of `utils/caefileio/readme.py`; `none` models the raised `ValueError`. -/
def strptimeReadmeDate (s : String) : Option PyDateTime := do
  let (y, r) ← eatYear s.toList
  let r ← eatChar '-' r
  let (mo, r) ← eatNum2 1 12 r
  let r ← eatChar '-' r
  let (d, r) ← eatNum2 1 31 r
  let r ← eatStr "__" r
  let (h, r) ← eatNum2 0 23 r
  let r ← eatChar ':' r
  let (mi, r) ← eatNum2 0 59 r
  let r ← eatChar ':' r
  let (sec, r) ← eatNum2 0 59 r
  if r = [] ∧ d ≤ daysInMonth y mo then
    pure ⟨y, mo, d, h, mi, sec⟩
  else none

/-- Python `s.split()`: split on whitespace runs, no empty tokens. -/
def splitWs (s : String) : List String :=
  ((splitCh ' ' (s.toList.map
    (fun c => if Char.isWhitespace c then ' ' else c))).filter
      (· ≠ [])).map String.mk

def toLowerStr (s : String) : String := String.mk (s.toList.map Char.toLower)

def weekdayAbbrevs : List String :=
  ["mon", "tue", "wed", "thu", "fri", "sat", "sun"]

def monthAbbrevs : List String :=
  ["jan", "feb", "mar", "apr", "may", "jun",
   "jul", "aug", "sep", "oct", "nov", "dec"]

/-- Month number of a month-name abbreviation (`%b`, case-insensitive). -/
def monthIndex (s : String) : Option Nat :=
  (monthAbbrevs.findIdx? (fun m => m = toLowerStr s)).map (· + 1)

/-- Parse an `%H:%M:%S` token. -/
def parseHMS (cs : List Char) : Option (Nat × Nat × Nat) := do
  let (h, r) ← eatNum2 0 23 cs
  let r ← eatChar ':' r
  let (mi, r) ← eatNum2 0 59 r
  let r ← eatChar ':' r
  let (sec, r) ← eatNum2 0 59 r
  if r = [] then pure (h, mi, sec) else none

/-- `datetime.strptime(s, "%a %b %d %H:%M:%S %Y")`, the
`submission_time` format of `joblogfile.py`
(e.g. `Fri Jul 27 08:28:38 2018`). -/
def strptimeLogDate (s : String) : Option PyDateTime :=
  if pyStrip s ≠ s then none
  else
    match splitWs s with
    | [wd, mon, dayS, hms, yearS] =>
      if weekdayAbbrevs.contains (toLowerStr wd) then
        match monthIndex mon, eatNum2 1 31 dayS.toList,
            parseHMS hms.toList, eatYear yearS.toList with
        | some mo, some (d, []), some (h, mi, sec), some (y, []) =>
          if d ≤ daysInMonth y mo then some ⟨y, mo, d, h, mi, sec⟩ else none
        | _, _, _, _ => none
      else none
    | _ => none

/-- Days since 1970-01-01 of a proleptic-Gregorian date
(Hinnant's civil-days algorithm). -/
def daysFromCivil (y : Int) (m d : Nat) : Int :=
  let yy : Int := if m ≤ 2 then y - 1 else y
  let era : Int := (if 0 ≤ yy then yy else yy - 399) / 400
  let yoe : Int := yy - era * 400
  let mp : Int := (Int.ofNat m + 9) % 12
  let doy : Int := (153 * mp + 2) / 5 + Int.ofNat d - 1
  let doe : Int := yoe * 365 + yoe / 4 - yoe / 100 + doy
  era * 146097 + doe - 719468

/-- Seconds since the epoch of a naive datetime. -/
def totalSeconds (t : PyDateTime) : Int :=
  daysFromCivil (Int.ofNat t.year) t.month t.day * 86400
    + (t.hour * 3600 + t.minute * 60 + t.second : Nat)

/-- `is_recent` from `caejobdiary/utils/jobinfo/poll.py`: true iff the
value is a datetime lying within 24 hours before `now` (or any time
after `now`, since `now - t <= timedelta(hours=24)` then also holds). -/
def is_recent (dt : Option PyDateTime) (now : PyDateTime) : Bool :=
  match dt with
  | some t => decide (totalSeconds now - totalSeconds t ≤ 86400)
  | none => false

/-! ## `caejobdiary/utils/caefileio/joblogfile.py` -/

/-- Python `line.split(":")[-1].strip()`. -/
def lastColonValue (line : String) : String :=
  pyStrip (String.mk (lastSeg (splitCh ':' line.toList)))

/-- Is `cs` a valid CPython integer-literal digit sequence: starts with
a digit, and underscores appear only singly between digits? -/
def digitsWithUnderscores : List Char → Bool
  | [] => false
  | [c] => isDigitCh c
  | c :: d :: tl =>
    if isDigitCh c then digitsWithUnderscores (d :: tl)
    else if c = '_' then isDigitCh d && digitsWithUnderscores (d :: tl)
    else false

/-- Python `int(s)` for a decimal string: strips whitespace, allows one
sign, then digits with optional single underscores between them;
`none` models the raised `ValueError`. -/
def pyInt? (s : String) : Option Int :=
  let core : List Char → Option Int := fun cs =>
    match cs with
    | [] => none
    | c :: _ =>
      if isDigitCh c && digitsWithUnderscores cs then
        some (Int.ofNat (digitsVal (cs.filter (· ≠ '_'))))
      else none
  match (pyStrip s).toList with
  | '+' :: tl => core tl
  | '-' :: tl => (core tl).map (fun n => -n)
  | cs => core cs

/-- The triple returned by `get_job_info_from_joblogfile`. -/
structure JoblogInfo where
  job_id : Option Int
  sub_dir : Option String
  log_date : Option PyDateTime
deriving DecidableEq

/-- One line of the `get_job_info_from_joblogfile` scan: the
`job_number`, `sge_o_workdir` and `submission_time` keys are found by
substring match; a failed `int` or date parse keeps the previous value
(the exception is caught and logged). -/
def joblogStep (acc : JoblogInfo) (line : String) : JoblogInfo :=
  let acc :=
    if substrOf "job_number" line then
      match pyInt? (lastColonValue line) with
      | some n => { acc with job_id := some n }
      | none => acc
    else acc
  let acc :=
    if substrOf "sge_o_workdir" line then
      let w := lastColonValue line
      if w ≠ "" then { acc with sub_dir := some w } else acc
    else acc
  if substrOf "submission_time" line then
    match strptimeLogDate (get_value_string_from_line line) with
    | some t => { acc with log_date := some t }
    | none => acc
  else acc

/-- `get_job_info_from_joblogfile` on the file's (newline-stripped)
lines. -/
def get_job_info_from_joblogfile (lines : List String) : JoblogInfo :=
  lines.foldl joblogStep ⟨none, none, none⟩

/-! ## `utils/caefileio/readme.py` -/

/-- The dictionary built by `get_job_info_from_readme`, restricted to
the seven keys the parser can write. -/
structure ReadmeInfo where
  main_name : Option String
  base_runs : Option (List Int)
  info_block : Option String
  username : Option String
  email : Option String
  sub_date : Option PyDateTime
  solver : Option String
deriving DecidableEq

def emptyReadmeInfo : ReadmeInfo := ⟨none, none, none, none, none, none, none⟩

/-- Python exceptions that escape the embedded functions. -/
inductive PyExc
  | valueError
  | attributeError
  | permissionError
  | notADirectoryError
  | osError
deriving DecidableEq

/-- `get_base_runs_from_line`: replace every non-digit of the value by a
space, split on whitespace and read each token as an integer. -/
def get_base_runs_from_line (line : String) : List Int :=
  let s := get_value_string_from_line line
  let clean := String.mk (s.toList.map (fun c => if isDigitCh c then c else ' '))
  (splitWs clean).map (fun t => (digitsVal t.toList : Int))

/-- Parser state of the README line scan: the keys found so far, the
`reading_info_block` flag and the `info_block` accumulator. -/
structure RState where
  info : ReadmeInfo
  reading_info_block : Bool
  acc : String
deriving DecidableEq

def infoMarker : String := "information      :"

def headerMarker : String := "********Header********"

/-- The `FILE:` branch of the scan. -/
def stepMainName (st : RState) (line : String) : RState :=
  if substrOf "FILE:" line then
    { st with info :=
      { st.info with main_name := some (get_value_string_from_line line) } }
  else st

/-- The `base-run (job-id):` branch of the scan. -/
def stepBaseRuns (st : RState) (line : String) : RState :=
  if substrOf "base-run (job-id):" line then
    { st with info :=
      { st.info with base_runs := some (get_base_runs_from_line line) } }
  else st

/-- The info-block part of the scan: while `reading_info_block` is set, a
header line closes the block (storing the right-stripped accumulator)
and any other line is accumulated; afterwards a line containing the
`information` marker switches accumulation on.  Accumulated lines get
their newline back, as Python keeps it in the line. -/
def stepInfoBlock (st : RState) (line : String) : RState :=
  let st :=
    if st.reading_info_block then
      if substrOf headerMarker line then
        { st with reading_info_block := false,
                  info := { st.info with info_block := some (pyRStrip st.acc) } }
      else { st with acc := st.acc ++ line ++ "\n" }
    else st
  if substrOf infoMarker line then { st with reading_info_block := true } else st

/-- The `Sub-User:` branch of the scan. -/
def stepUsername (st : RState) (line : String) : RState :=
  if substrOf "Sub-User:" line then
    { st with info :=
      { st.info with username := some (get_value_string_from_line line) } }
  else st

/-- The `EMail:` branch of the scan. -/
def stepEmail (st : RState) (line : String) : RState :=
  if substrOf "EMail:" line then
    { st with info :=
      { st.info with email := some (get_value_string_from_line line) } }
  else st

/-- The `Sub-Date:` branch of the scan; an unparseable date raises
`ValueError` out of the parser. -/
def stepSubDate (st : RState) (line : String) : Except PyExc RState :=
  if substrOf "Sub-Date:" line then
    match strptimeReadmeDate (get_value_string_from_line line) with
    | some t => .ok { st with info := { st.info with sub_date := some t } }
    | none => .error .valueError
  else .ok st

/-- The `Solver:` branch of the scan. -/
def stepSolver (st : RState) (line : String) : RState :=
  if substrOf "Solver:" line then
    { st with info :=
      { st.info with solver := some (get_value_string_from_line line) } }
  else st

/-- One line of the `get_job_info_from_readme` scan, in source order. -/
def readmeStep (st : RState) (line : String) : Except PyExc RState :=
  let st := stepMainName st line
  let st := stepBaseRuns st line
  let st := stepInfoBlock st line
  let st := stepUsername st line
  let st := stepEmail st line
  match stepSubDate st line with
  | .error e => .error e
  | .ok st => .ok (stepSolver st line)

/-- Run the README scan over a list of lines. -/
def readmeRun (st : RState) : List String → Except PyExc RState
  | [] => .ok st
  | l :: ls =>
    match readmeStep st l with
    | .ok st2 => readmeRun st2 ls
    | .error e => .error e

/-- `get_job_info_from_readme` on the file's lines: `none` models the
`return None` for a dictionary that stayed empty. -/
def parse_readme_lines (lines : List String) : Except PyExc (Option ReadmeInfo) :=
  match readmeRun ⟨emptyReadmeInfo, false, ""⟩ lines with
  | .error e => .error e
  | .ok st =>
    .ok (if st.info = emptyReadmeInfo then none else some st.info)

/-- Outcome of calling `get_job_info_from_readme` on a path, separating
the open-errors the caller catches from what the parser produces. -/
inductive ReadmeParseOutcome
  | fileNotFound
  | permissionDenied
  | raised (e : PyExc)
  | parsed (d : Option ReadmeInfo)
deriving DecidableEq

/-- `get_job_info_from_readme` reading through the filesystem. -/
def get_job_info_from_readme (fs : FS) (path : String) : ReadmeParseOutcome :=
  match fs.readLines path with
  | .error .notFound => .fileNotFound
  | .error .permissionDenied => .permissionDenied
  | .ok lines =>
    match parse_readme_lines lines with
    | .error e => .raised e
    | .ok d => .parsed d

/-- Outcome of `get_readme_filename_from_job_dir`: only
`FileNotFoundError` and `PermissionError` are handled by the caller,
other listing errors propagate as exceptions. -/
inductive ReadmeLookup
  | found (name : String)
  | noneFound
  | dirNotFound
  | permissionDenied
  | raised (e : PyExc)
deriving DecidableEq

/-- `get_readme_filename_from_job_dir`: first listing entry matching the
README filename pattern. -/
def get_readme_filename_from_job_dir (fs : FS) (job_dir : String) :
    ReadmeLookup :=
  match fs.listdir job_dir with
  | .ok files =>
    match (files.filter isReadmeFilename).head? with
    | some n => .found n
    | none => .noneFound
  | .notFound => .dirNotFound
  | .permissionDenied => .permissionDenied
  | .notADirectory => .raised .notADirectoryError
  | .otherOSError => .raised .osError

/-- `required_keys_avaiable` from `poll.py` (source spelling kept):
all seven required keys must be present in the dictionary. -/
def required_keys_avaiable (d : ReadmeInfo) : Bool :=
  d.main_name.isSome && d.base_runs.isSome && d.username.isSome &&
  d.email.isSome && d.info_block.isSome && d.sub_date.isSome &&
  d.solver.isSome

/-! ## The job store (`diary/models.py` as seen by the core) -/

/-- A persisted `Job` row with the fields the core reads and writes.
The owning user is represented by the identifying username/email pair
and `base_runs` by the list of referenced job ids. -/
structure JobRec where
  job_id : Int
  main_name : String
  solver : String
  job_status : String
  job_dir : Option String
  sub_dir : String
  sub_date : Option PyDateTime
  info : String
  readme_filename : Option String
  logfile_path : String
  username : String
  email : String
  base_runs : List Int
deriving DecidableEq

/-- `Job.objects.filter(pk=job_id).exists()`. -/
def storeHasJob (store : List JobRec) (jid : Int) : Bool :=
  store.any (fun r => r.job_id == jid)

/-! ## `caejobdiary/utils/jobinfo/poll.py` — new-job ingestion -/

/-- Result of `start_job_creation_process_from_joblogfile`: the returned
boolean together with the store after the call, a raised exception, or
fuel exhaustion.  `fuelOut` is a modelling artifact: the race-recovery
loop of the source is unbounded, so the embedding bounds it with fuel. -/
inductive IngestResult
  | ret (created : Bool) (store : List JobRec)
  | raised (e : PyExc)
  | fuelOut
deriving DecidableEq

/-- The race-recovery `while` loop of
`start_job_creation_process_from_joblogfile` (steps: resolve status,
find README filename, parse README, check required keys, materialize
and save).  A `FileNotFoundError` on the determined `job_dir` or README
restarts the loop from status resolution. -/
def ingestLoop (fs : FS) (store : List JobRec) (jid : Int)
    (sub_dir logfile_path : String) (recent : Bool) : Nat → IngestResult
  | 0 => .fuelOut
  | fuel + 1 =>
    let (job_status, job_dir?) :=
      get_job_status_and_job_dir_from_sub_dir fs jid sub_dir recent
    match job_dir? with
    | none => .ret false store
    | some job_dir =>
      if job_status = JOB_STATUS_NONE then .ret false store
      else
        match get_readme_filename_from_job_dir fs job_dir with
        | .permissionDenied => .ret false store
        | .dirNotFound => ingestLoop fs store jid sub_dir logfile_path recent fuel
        | .raised e => .raised e
        | .noneFound => .ret false store
        | .found readme_filename =>
          let readme_filepath := joinPath job_dir readme_filename
          match get_job_info_from_readme fs readme_filepath with
          | .permissionDenied => .ret false store
          | .fileNotFound => ingestLoop fs store jid sub_dir logfile_path recent fuel
          | .raised e => .raised e
          | .parsed none => .raised .attributeError
          | .parsed (some d) =>
            if required_keys_avaiable d then
              match d.main_name, d.base_runs, d.username, d.email,
                  d.info_block, d.sub_date, d.solver with
              | some mn, some brs, some un, some em, some ib, some sd, some sv =>
                let newJob : JobRec :=
                  { job_id := jid, main_name := mn, solver := sv,
                    job_status := job_status,
                    job_dir := some job_dir, sub_dir := sub_dir,
                    sub_date := some sd, info := ib,
                    readme_filename := some readme_filename,
                    logfile_path := logfile_path, username := un, email := em,
                    base_runs := [] }
                let store1 := store ++ [newJob]
                let finalBase := brs.filter (fun b => storeHasJob store1 b)
                .ret true (store ++ [{ newJob with base_runs := finalBase }])
              | _, _, _, _, _, _, _ => .ret false store
            else .ret false store

/-- `start_job_creation_process_from_joblogfile`: parse the submission
log (a missing file aborts, a permission error propagates), abort when
`job_id`/`sub_dir` are missing or the id already exists in the store,
then run the race-recovery loop. -/
def start_job_creation_process_from_joblogfile (fs : FS) (now : PyDateTime)
    (store : List JobRec) (joblogfile : String) (fuel : Nat) : IngestResult :=
  match fs.readLines joblogfile with
  | .error .notFound => .ret false store
  | .error .permissionDenied => .raised .permissionError
  | .ok lines =>
    let info := get_job_info_from_joblogfile lines
    match info.job_id, info.sub_dir with
    | some jid, some sub_dir =>
      if storeHasJob store jid then .ret false store
      else
        ingestLoop fs store jid sub_dir joblogfile
          (is_recent info.log_date now) fuel
    | _, _ => .ret false store

/-! ## `utils/jobinfo/update.py` — the status refresher -/

/-- `update_status_of_job`: re-resolve the job's status with
`recent=True`; save (replacing the row with the updated in-memory
object) exactly when the status changed.  Returns the store after the
call and whether a write happened. -/
def update_status_of_job (fs : FS) (store : List JobRec) (job : JobRec) :
    List JobRec × Bool :=
  let before_update_status := job.job_status
  let res := get_job_status_and_job_dir_from_sub_dir fs job.job_id job.sub_dir true
  let job2 := { job with job_status := res.1, job_dir := res.2 }
  if res.1 ≠ before_update_status then
    (store.map (fun r => if r.job_id == job.job_id then job2 else r), true)
  else (store, false)

/-! ## Resolver lemmas -/

theorem checkSubDirOnce_status (fs : FS) (job_id : Int) (sub_dir : String)
    (st : String) (d : Option String)
    (h : checkSubDirOnce fs job_id sub_dir = some (st, d)) :
    st = JOB_STATUS_FINISHED ∨ st = JOB_STATUS_RUNNING ∨ st = JOB_STATUS_PENDING := by
  unfold checkSubDirOnce at h
  dsimp only at h
  repeat' split at h
  all_goals simp_all

theorem checkSubDirOnce_status_ne_none (fs : FS) (job_id : Int) (sub_dir : String)
    (st : String) (d : Option String)
    (h : checkSubDirOnce fs job_id sub_dir = some (st, d)) :
    st ≠ JOB_STATUS_NONE := by
  rcases checkSubDirOnce_status fs job_id sub_dir st d h with h1 | h1 | h1 <;>
    (subst h1; decide)

theorem runChecks_found (fs : FS) (job_id : Int) (sub_dir : String)
    (c : String × Option String)
    (h : checkSubDirOnce fs job_id sub_dir = some c) (n k : Nat) :
    runChecks fs job_id sub_dir (n + 1) k = (some c, k + 1) := by
  simp [runChecks, h]

theorem runChecks_notfound (fs : FS) (job_id : Int) (sub_dir : String)
    (h : checkSubDirOnce fs job_id sub_dir = none) (n k : Nat) :
    runChecks fs job_id sub_dir n k = (none, k + n) := by
  induction n generalizing k with
  | zero => simp [runChecks]
  | succ m ih =>
    simp only [runChecks, h]
    rw [ih]
    simp only [Prod.mk.injEq, true_and]
    omega

theorem runChecks_char (fs : FS) (job_id : Int) (sub_dir : String) (n k : Nat)
    (c : String × Option String)
    (h : (runChecks fs job_id sub_dir n k).1 = some c) :
    checkSubDirOnce fs job_id sub_dir = some c := by
  induction n generalizing k with
  | zero => simp [runChecks] at h
  | succ m ih =>
    rw [runChecks] at h
    rcases hc : checkSubDirOnce fs job_id sub_dir with _ | c2 <;> rw [hc] at h
    · have h2 := ih (k + 1) h
      rw [hc] at h2
      exact h2
    · simpa using h

theorem runChecks_found_pos (fs : FS) (job_id : Int) (sub_dir : String)
    (c : String × Option String)
    (h : checkSubDirOnce fs job_id sub_dir = some c) (n k : Nat) (hn : n ≠ 0) :
    runChecks fs job_id sub_dir n k = (some c, k + 1) := by
  cases n with
  | zero => cases hn rfl
  | succ m => exact runChecks_found fs job_id sub_dir c h m k

/-! ## Claim C5 -/

/-- C5: for every filesystem snapshot, job id, sub_dir and recent flag,
the resolver's status is `JOB_STATUS_NONE` iff the returned `job_dir` is
`None`, and any returned `job_dir` was verified to be a directory. -/
theorem resolve_none_iff_no_job_dir (fs : FS) (job_id : Int) (sub_dir : String)
    (recent : Bool) :
    (((get_job_status_and_job_dir_from_sub_dir fs job_id sub_dir recent).1
        = JOB_STATUS_NONE)
      ↔ ((get_job_status_and_job_dir_from_sub_dir fs job_id sub_dir recent).2
        = none))
    ∧ (∀ p,
        (get_job_status_and_job_dir_from_sub_dir fs job_id sub_dir recent).2
          = some p → fs.isdir p = true) := by
  unfold get_job_status_and_job_dir_from_sub_dir resolveWithCount
  dsimp only
  rcases hr : runChecks fs job_id sub_dir (if recent then 3 else 1) 0
    with ⟨c?, cnt⟩
  rcases c? with _ | ⟨st, d?⟩
  · simp
  · rcases d? with _ | dir
    · simp
    · have hck : checkSubDirOnce fs job_id sub_dir = some (st, some dir) := by
        apply runChecks_char fs job_id sub_dir (if recent then 3 else 1) 0
        rw [hr]
      have hst := checkSubDirOnce_status_ne_none fs job_id sub_dir st
        (some dir) hck
      dsimp only
      cases hd : fs.isdir dir
      · simp [hd]
      · simp [hd, hst]

def fsFive : FS :=
  { listdir := fun q => if q = "s" then .ok ["5"] else .notFound
    isdir := fun q => q = "s/5"
    readLines := fun _ => .error .notFound }

theorem resolve_none_iff_no_job_dir_witness : fsFive.isdir "s/5" = true :=
  (resolve_none_iff_no_job_dir fsFive 5 "s" false).2 "s/5" (by decide)

/-! ## Claim C8 -/

/-- C8: a non-directory entry named exactly `str(job_id)` is selected as
the finished candidate without a directory check, so lower-priority
evidence in the same listing is never examined and the post-loop
validation makes the resolver return `(NONE, None)`. -/
theorem resolve_nondir_exact_match_shadows (fs : FS) (job_id : Int)
    (sub_dir : String) (recent : Bool) (content : List String)
    (hls : fs.listdir sub_dir = .ok content)
    (hmem : content.contains (toString job_id) = true)
    (hdir : fs.isdir (joinPath sub_dir (toString job_id)) = false) :
    checkSubDirOnce fs job_id sub_dir
      = some (JOB_STATUS_FINISHED, some (joinPath sub_dir (toString job_id)))
    ∧ get_job_status_and_job_dir_from_sub_dir fs job_id sub_dir recent
      = (JOB_STATUS_NONE, none) := by
  have hck : checkSubDirOnce fs job_id sub_dir
      = some (JOB_STATUS_FINISHED, some (joinPath sub_dir (toString job_id))) := by
    unfold checkSubDirOnce
    rw [hls]
    dsimp only
    rw [if_pos hmem]
  refine ⟨hck, ?_⟩
  unfold get_job_status_and_job_dir_from_sub_dir resolveWithCount
  cases recent <;> dsimp only <;>
    rw [runChecks_found_pos fs job_id sub_dir _ hck _ 0 (by decide)] <;>
    simp [hdir]

def fsEight : FS :=
  { listdir := fun q => if q = "s" then .ok ["9", "9.pending"] else .notFound
    isdir := fun q => q = "s/9.pending"
    readLines := fun _ => .error .notFound }

theorem resolve_nondir_exact_match_shadows_witness :
    checkSubDirOnce fsEight 9 "s" = some (JOB_STATUS_FINISHED, some "s/9")
    ∧ get_job_status_and_job_dir_from_sub_dir fsEight 9 "s" false
      = (JOB_STATUS_NONE, none) :=
  resolve_nondir_exact_match_shadows fsEight 9 "s" false ["9", "9.pending"]
    (by decide) (by decide) (by decide)

/-! ## Claim C1 -/

def fsOne : FS :=
  { listdir := fun q => if q = "sub" then .ok ["77"] else .notFound
    isdir := fun _ => false
    readLines := fun _ => .error .notFound }

/-- C1 counterexample: with `recent=true`, attempt 1 finds the candidate
`77` whose job_dir `sub/77` is not a directory; the claim would have the
resolver perform all 3 attempts, but the code stops after 1 check
(finding a candidate ends the `while` loop; the directory validation
runs only once, after the loop). -/
theorem resolve_invalid_candidate_counterexample :
    checkSubDirOnce fsOne 77 "sub" = some (JOB_STATUS_FINISHED, some "sub/77")
    ∧ fsOne.isdir "sub/77" = false
    ∧ resolveWithCount fsOne 77 "sub" true ≠ ((JOB_STATUS_NONE, none), 3)
    ∧ resolveWithCount fsOne 77 "sub" true = ((JOB_STATUS_NONE, none), 1) := by
  decide

/-- C1 (amended): when an attempt finds a candidate through the
exact-name, cluster-script or pending branch whose resolved job_dir is
not a directory, the retry loop stops with that attempt: the resolver
returns `(NONE, None)` after exactly one check, without performing the
remaining attempts.  (Only the renamed-folder fallback validates inside
the attempt and lets the loop continue.) -/
theorem resolve_invalid_candidate_stops_retries (fs : FS) (job_id : Int)
    (sub_dir : String) (st : String) (p : String)
    (h1 : checkSubDirOnce fs job_id sub_dir = some (st, some p))
    (h2 : fs.isdir p = false) :
    resolveWithCount fs job_id sub_dir true = ((JOB_STATUS_NONE, none), 1) := by
  unfold resolveWithCount
  rw [show (if (true = true) then 3 else 1 : Nat) = 3 from rfl]
  dsimp only
  rw [runChecks_found_pos fs job_id sub_dir _ h1 3 0 (by decide)]
  simp [h2]

theorem resolve_invalid_candidate_stops_retries_witness :
    checkSubDirOnce fsOne 77 "sub" = some (JOB_STATUS_FINISHED, some "sub/77")
    ∧ resolveWithCount fsOne 77 "sub" true = ((JOB_STATUS_NONE, none), 1) :=
  ⟨by decide,
   resolve_invalid_candidate_stops_retries fsOne 77 "sub" JOB_STATUS_FINISHED
     "sub/77" (by decide) (by decide)⟩

/-! ## Claim C2 -/

def fsTwo : FS :=
  { listdir := fun q =>
      if q = "s" then .ok ["8.dyn-dmp.x99xx123.16.sh", "8.pending"]
      else .notFound
    isdir := fun q => q = "s/8.pending"
    readLines := fun _ => .error .notFound }

/-- C2 counterexample: the listing has no exact `8` entry, a cluster
script for job 8 whose scratch directory does not resolve (the script
file is unreadable), and a directory `8.pending`; the claim would have
the resolver fall through to PENDING, but the code commits to the
cluster-script candidate and returns `(NONE, None)`. -/
theorem resolve_pending_after_bad_script_counterexample :
    fsTwo.listdir "s" = .ok ["8.dyn-dmp.x99xx123.16.sh", "8.pending"]
    ∧ (["8.dyn-dmp.x99xx123.16.sh", "8.pending"].contains
        (toString (8 : Int))) = false
    ∧ get_cluster_script_from_list 8 ["8.dyn-dmp.x99xx123.16.sh", "8.pending"]
        = some "8.dyn-dmp.x99xx123.16.sh"
    ∧ get_cluster_scratch_dir_from_script fsTwo "s/8.dyn-dmp.x99xx123.16.sh"
        = none
    ∧ (["8.dyn-dmp.x99xx123.16.sh", "8.pending"].contains
        (toString (8 : Int) ++ ".pending")) = true
    ∧ fsTwo.isdir "s/8.pending" = true
    ∧ get_job_status_and_job_dir_from_sub_dir fsTwo 8 "s" false
        ≠ (JOB_STATUS_PENDING, some "s/8.pending")
    ∧ get_job_status_and_job_dir_from_sub_dir fsTwo 8 "s" false
        = (JOB_STATUS_NONE, none) := by
  decide

/-- C2 (amended): when the exact finished name is absent and a cluster
script for the job id is present, the resolver commits to the
cluster-script candidate regardless of whether its scratch directory
resolves; if the scratch directory does not resolve, the attempt yields
RUNNING with no job_dir, the retry loop ends, and the resolver returns
`(NONE, None)` after exactly one check — the pending entry is never
examined. -/
theorem resolve_cluster_script_shadows_pending (fs : FS) (job_id : Int)
    (sub_dir : String) (recent : Bool) (content : List String) (script : String)
    (hls : fs.listdir sub_dir = .ok content)
    (hnf : content.contains (toString job_id) = false)
    (hcs : get_cluster_script_from_list job_id content = some script)
    (hscr : get_cluster_scratch_dir_from_script fs (joinPath sub_dir script)
      = none) :
    checkSubDirOnce fs job_id sub_dir = some (JOB_STATUS_RUNNING, none)
    ∧ resolveWithCount fs job_id sub_dir recent
      = ((JOB_STATUS_NONE, none), 1) := by
  have hck : checkSubDirOnce fs job_id sub_dir
      = some (JOB_STATUS_RUNNING, none) := by
    unfold checkSubDirOnce
    rw [hls]
    dsimp only
    rw [if_neg (by rw [hnf]; exact Bool.false_ne_true), hcs]
    dsimp only
    rw [hscr]
  refine ⟨hck, ?_⟩
  unfold resolveWithCount
  cases recent <;> dsimp only <;>
    rw [runChecks_found_pos fs job_id sub_dir _ hck _ 0 (by decide)]

theorem resolve_cluster_script_shadows_pending_witness :
    checkSubDirOnce fsTwo 8 "s" = some (JOB_STATUS_RUNNING, none)
    ∧ resolveWithCount fsTwo 8 "s" false = ((JOB_STATUS_NONE, none), 1) :=
  resolve_cluster_script_shadows_pending fsTwo 8 "s" false
    ["8.dyn-dmp.x99xx123.16.sh", "8.pending"] "8.dyn-dmp.x99xx123.16.sh"
    (by decide) (by decide) (by decide) (by decide)

/-! ## Claim C3 -/

theorem dropPfx_self_append (xs ys : List Char) :
    dropPfx xs (xs ++ ys) = some ys := by
  induction xs with
  | nil => rfl
  | cons c tl ih => simp [dropPfx, ih]

theorem renamedFolderMatch_anychar_pending (job_id : Int) (c : Char)
    (t : String) (hc : c ≠ '\n') :
    renamedFolderMatch job_id
      (toString job_id ++ (String.singleton c ++ ("pending" ++ t))) = false := by
  unfold renamedFolderMatch
  have h1 : (toString job_id ++ (String.singleton c ++ ("pending" ++ t))).toList
      = (toString job_id).toList ++ (c :: ("pending".toList ++ t.toList)) := by
    simp [String.toList, String.data_append, String.singleton]
  rw [h1, dropPfx_self_append]
  have hpre : "pending".toList.isPrefixOf ("pending".toList ++ t.toList) = true :=
    List.isPrefixOf_iff_prefix.mpr (List.prefix_append _ _)
  simp [hpre, hc]

theorem renamedFolderMatch_of_no_pending (job_id : Int) (rest : String)
    (h1 : "pending".toList.isPrefixOf (rest.toList.drop 1) = false)
    (h2 : dotStarEnd rest.toList = true) :
    renamedFolderMatch job_id (toString job_id ++ rest) = true := by
  unfold renamedFolderMatch
  have hl : (toString job_id ++ rest).toList
      = (toString job_id).toList ++ rest.toList := by
    simp [String.toList, String.data_append]
  rw [hl, dropPfx_self_append]
  cases hrest : rest.toList with
  | nil =>
    rw [hrest] at h2
    simpa using h2
  | cons c tl =>
    rw [hrest] at h1 h2
    simp only [List.drop_succ_cons, List.drop_zero] at h1
    dsimp only
    rw [h1]
    simp [h2]

/-- C3 (amended): in the code the lookahead dot is unescaped, so an
entry is a renamed-folder match iff it is `str(job_id)` followed by text
that does NOT continue with any non-newline character plus `pending`:
names like `<job_id>_pending_old` are rejected (unlike under the spec's
escaped-dot pattern), while names like `<job_id>_restart` still match. -/
theorem renamed_folder_regex_unescaped_dot (job_id : Int) :
    (∀ (c : Char) (t : String), c ≠ '\n' →
      renamedFolderMatch job_id
        (toString job_id ++ (String.singleton c ++ ("pending" ++ t))) = false)
    ∧ (∀ rest : String,
        "pending".toList.isPrefixOf (rest.toList.drop 1) = false →
        dotStarEnd rest.toList = true →
        renamedFolderMatch job_id (toString job_id ++ rest) = true) :=
  ⟨fun c t hc => renamedFolderMatch_anychar_pending job_id c t hc,
   fun rest h1 h2 => renamedFolderMatch_of_no_pending job_id rest h1 h2⟩

theorem renamed_folder_regex_unescaped_dot_witness :
    renamedFolderMatch 1040629
      (toString (1040629 : Int) ++ (String.singleton '_' ++ ("pending" ++ "_old")))
      = false
    ∧ renamedFolderMatch 1040629 (toString (1040629 : Int) ++ "_restart")
      = true :=
  ⟨(renamed_folder_regex_unescaped_dot 1040629).1 '_' "_old" (by decide),
   (renamed_folder_regex_unescaped_dot 1040629).2 "_restart" (by decide)
     (by decide)⟩

def fsThree : FS :=
  { listdir := fun q => if q = "s" then .ok ["1_pending_old"] else .notFound
    isdir := fun q => q = "s/1_pending_old"
    readLines := fun _ => .error .notFound }

/-- C3 counterexample: the directory entry `1_pending_old` matches the
spec's escaped-dot pattern (its text after the id does not literally
begin with `.pending`), so the claim predicts a FINISHED result; the
code's unescaped-dot pattern rejects it and the resolver returns
`(NONE, None)`. -/
theorem renamed_folder_escaped_dot_counterexample :
    renamedFolderMatchSpec 1 "1_pending_old" = true
    ∧ renamedFolderMatch 1 "1_pending_old" = false
    ∧ fsThree.isdir "s/1_pending_old" = true
    ∧ get_job_status_and_job_dir_from_sub_dir fsThree 1 "s" false
        = (JOB_STATUS_NONE, none)
    ∧ get_job_status_and_job_dir_from_sub_dir fsThree 1 "s" false
        ≠ (JOB_STATUS_FINISHED, some "s/1_pending_old") := by
  decide

/-! ## Claim C7 -/

/-- C7: `update_status_of_job` writes to the store iff the re-resolved
status differs from the stored one; when the status is unchanged, the
persisted store is untouched (even if the re-resolved job_dir differs
from the stored one). -/
theorem update_writes_iff_status_changed (fs : FS) (store : List JobRec)
    (job : JobRec) :
    ((update_status_of_job fs store job).2 = true
      ↔ (get_job_status_and_job_dir_from_sub_dir fs job.job_id job.sub_dir
          true).1 ≠ job.job_status)
    ∧ ((get_job_status_and_job_dir_from_sub_dir fs job.job_id job.sub_dir
          true).1 = job.job_status
        → (update_status_of_job fs store job).1 = store) := by
  unfold update_status_of_job
  dsimp only
  by_cases h : (get_job_status_and_job_dir_from_sub_dir fs job.job_id
      job.sub_dir true).1 = job.job_status
  · simp [h]
  · simp [h]

def fsSeven : FS :=
  { listdir := fun _ => .notFound
    isdir := fun _ => false
    readLines := fun _ => .error .notFound }

def jobSeven : JobRec :=
  ⟨11, "m", "slv", "non", none, "x", none, "", none, "lg", "u", "e", []⟩

theorem update_writes_iff_status_changed_witness :
    (update_status_of_job fsSeven [jobSeven] jobSeven).1 = [jobSeven] :=
  (update_writes_iff_status_changed fsSeven [jobSeven] jobSeven).2 (by decide)

/-! ## Claim C9 -/

theorem splitCh_ne_nil (sep : Char) (cs : List Char) : splitCh sep cs ≠ [] := by
  induction cs with
  | nil => simp [splitCh]
  | cons c tl ih =>
    simp only [splitCh]
    split
    · simp
    · rcases h : splitCh sep tl with _ | ⟨h1, t1⟩
      · exact absurd h ih
      · simp [h]

theorem lastSeg_cons (a : List Char) (l : List (List Char)) (h : l ≠ []) :
    lastSeg (a :: l) = lastSeg l := by
  rcases l with _ | ⟨b, t⟩
  · cases h rfl
  · rfl

theorem splitCh_not_mem (sep : Char) (ys : List Char) (h : sep ∉ ys) :
    splitCh sep ys = [ys] := by
  induction ys with
  | nil => rfl
  | cons c tl ih =>
    have hc : ¬ (c = sep) := by
      intro e
      exact h (by rw [e]; exact List.mem_cons_self sep tl)
    have htl : sep ∉ tl := fun m => h (List.mem_cons_of_mem c m)
    simp only [splitCh]
    rw [if_neg hc, ih htl]

theorem splitCh_mem_length (sep : Char) (zs : List Char) (h : sep ∈ zs) :
    2 ≤ (splitCh sep zs).length := by
  induction zs with
  | nil => cases h
  | cons c tl ih =>
    simp only [splitCh]
    by_cases hc : c = sep
    · rw [if_pos hc]
      have h1 : 1 ≤ (splitCh sep tl).length :=
        List.length_pos.mpr (splitCh_ne_nil sep tl)
      simpa using h1
    · rw [if_neg hc]
      have hm : sep ∈ tl := by
        rcases List.mem_cons.mp h with h1 | h1
        · cases hc h1.symm
        · exact h1
      rcases hsp : splitCh sep tl with _ | ⟨h1, t1⟩
      · exact absurd hsp (splitCh_ne_nil sep tl)
      · have h2 := ih hm
        rw [hsp] at h2
        simpa using h2

theorem lastSeg_splitCh_append (sep : Char) (xs ys : List Char) :
    lastSeg (splitCh sep (xs ++ sep :: ys)) = lastSeg (splitCh sep ys) := by
  induction xs with
  | nil =>
    simp only [List.nil_append, splitCh, if_pos rfl]
    exact lastSeg_cons [] _ (splitCh_ne_nil sep ys)
  | cons c tl ih =>
    simp only [List.cons_append, splitCh]
    split
    · rw [lastSeg_cons [] _ (splitCh_ne_nil sep _)]
      exact ih
    · rcases hsp : splitCh sep (tl ++ sep :: ys) with _ | ⟨h1, t1⟩
      · exact absurd hsp (splitCh_ne_nil sep _)
      · have hlen := splitCh_mem_length sep (tl ++ sep :: ys)
          (by simp)
        rw [hsp] at hlen
        have ht1 : t1 ≠ [] := by
          intro e
          rw [e] at hlen
          simp at hlen
        rw [lastSeg_cons (c :: h1) t1 ht1]
        rw [hsp] at ih
        rw [lastSeg_cons h1 t1 ht1] at ih
        exact ih

theorem containsSeq_of_pfx (n h : List Char) (hp : n.isPrefixOf h = true) :
    containsSeq n h = true := by
  cases h with
  | nil => simpa [containsSeq] using hp
  | cons c tl => simp [containsSeq, hp]

theorem substrOf_of_pfx (needle hay : String)
    (h : needle.toList.isPrefixOf hay.toList = true) :
    substrOf needle hay = true :=
  containsSeq_of_pfx needle.toList hay.toList h

theorem lastColonValue_append (pre b : String) (hb : ':' ∉ b.toList) :
    lastColonValue (pre ++ ":" ++ b) = pyStrip b := by
  unfold lastColonValue
  have h1 : (pre ++ ":" ++ b).toList = pre.toList ++ ':' :: b.toList := by
    simp [String.toList, String.data_append]
  rw [h1, lastSeg_splitCh_append, splitCh_not_mem ':' b.toList hb]
  rfl

/-- C9: the submission-log parser keeps only the text after the LAST
colon of an `sge_o_workdir` line: for a line whose directory value is
`pre ++ ":" ++ b` (with `b` colon-free, stripped, nonempty), the
returned `sub_dir` is just `b`, not the full path. -/
theorem joblog_workdir_after_last_colon (pre b : String)
    (hb : ':' ∉ b.toList) (hstrip : pyStrip b = b) (hne : b ≠ "")
    (hjn : substrOf "job_number" (("sge_o_workdir: " ++ pre) ++ ":" ++ b)
      = false)
    (hst : substrOf "submission_time" (("sge_o_workdir: " ++ pre) ++ ":" ++ b)
      = false) :
    get_job_info_from_joblogfile [("sge_o_workdir: " ++ pre) ++ ":" ++ b]
      = ⟨none, some b, none⟩ := by
  have hw : substrOf "sge_o_workdir" (("sge_o_workdir: " ++ pre) ++ ":" ++ b)
      = true := by
    apply substrOf_of_pfx
    apply List.isPrefixOf_iff_prefix.mpr
    have h0 : "sge_o_workdir".toList <+: "sge_o_workdir: ".toList :=
      List.isPrefixOf_iff_prefix.mp (by decide)
    have h1 : (("sge_o_workdir: " ++ pre) ++ ":" ++ b).toList
        = "sge_o_workdir: ".toList ++ (pre.toList ++ (':' :: b.toList)) := by
      simp [String.toList, String.data_append]
    rw [h1]
    exact h0.trans (List.prefix_append _ _)
  unfold get_job_info_from_joblogfile
  simp only [List.foldl_cons, List.foldl_nil]
  unfold joblogStep
  rw [hjn, hst, hw]
  have hv : lastColonValue (("sge_o_workdir: " ++ pre) ++ ":" ++ b)
      = b := by
    rw [lastColonValue_append ("sge_o_workdir: " ++ pre) b hb, hstrip]
  simp [hv, hne]

theorem joblog_workdir_after_last_colon_witness :
    get_job_info_from_joblogfile
      [("sge_o_workdir: " ++ "/net/nas") ++ ":" ++ "/proj/dir"]
      = ⟨none, some "/proj/dir", none⟩ :=
  joblog_workdir_after_last_colon "/net/nas" "/proj/dir" (by decide)
    (by decide) (by decide) (by decide) (by decide)

/-! ## Claim C6 -/

theorem ingestLoop_created_mem (fs : FS) (store : List JobRec) (jid : Int)
    (sub_dir logfile_path : String) (recent : Bool) :
    ∀ (fuel : Nat) (store2 : List JobRec),
      ingestLoop fs store jid sub_dir logfile_path recent fuel
        = .ret true store2 → storeHasJob store2 jid = true := by
  intro fuel
  induction fuel with
  | zero =>
    intro store2 h
    cases h
  | succ m ih =>
    intro store2 h
    rw [ingestLoop] at h
    dsimp only at h
    repeat' split at h
    all_goals
      first
        | exact ih _ h
        | (injection h with h1 h2
           exact absurd h1 (by decide))
        | (injection h with h1 h2
           subst h2
           simp [storeHasJob])
        | simp at h

/-- C6: ingestion is idempotent in `job_id`: when the parsed id already
exists in the store, ingestion returns false and leaves the store
unchanged; and whenever ingestion reports a created record, the store
afterwards contains the parsed id — so ingesting the same submission-log
content twice creates exactly one record. -/
theorem ingest_idempotent (fs : FS) (now : PyDateTime) (store : List JobRec)
    (joblogfile : String) (lines : List String) (jid : Int) (sub_dir : String)
    (ld : Option PyDateTime) (fuel : Nat)
    (hread : fs.readLines joblogfile = .ok lines)
    (hparse : get_job_info_from_joblogfile lines = ⟨some jid, some sub_dir, ld⟩) :
    (storeHasJob store jid = true →
      start_job_creation_process_from_joblogfile fs now store joblogfile fuel
        = .ret false store)
    ∧ (∀ store2,
        start_job_creation_process_from_joblogfile fs now store joblogfile fuel
          = .ret true store2 → storeHasJob store2 jid = true) := by
  unfold start_job_creation_process_from_joblogfile
  rw [hread]
  dsimp only
  rw [hparse]
  dsimp only
  constructor
  · intro hh
    rw [if_pos hh]
  · intro store2 h
    by_cases hh : storeHasJob store jid = true
    · rw [if_pos hh] at h
      simp at h
    · rw [if_neg hh] at h
      exact ingestLoop_created_mem fs store jid sub_dir joblogfile _ fuel
        store2 h

def nowRef : PyDateTime := ⟨2018, 1, 1, 0, 0, 0⟩

def fsSix : FS :=
  { listdir := fun p =>
      if p = "/w6" then .ok ["7"]
      else if p = "/w6/7" then .ok ["README.m.README"]
      else .notFound
    isdir := fun p => p = "/w6/7"
    readLines := fun p =>
      if p = "log6" then .ok ["job_number: 7", "sge_o_workdir: /w6"]
      else if p = "/w6/7/README.m.README" then
        .ok ["FILE: m.key", "base-run (job-id): 5", "information      :",
             "info text", "********Header********", "Sub-User: kai",
             "EMail: k@e.com", "Sub-Date: 2018-06-07__17:21:21",
             "Solver: nastran"]
      else .error .notFound }

def jobSix : JobRec :=
  ⟨7, "m", "s", "pen", none, "/w6", none, "", none, "lg", "u", "e", []⟩

theorem ingest_idempotent_witness :
    storeHasJob [jobSix] 7 = true
    ∧ start_job_creation_process_from_joblogfile fsSix nowRef [jobSix] "log6" 5
      = .ret false [jobSix] :=
  ⟨by decide,
   (ingest_idempotent fsSix nowRef [jobSix] "log6"
     ["job_number: 7", "sge_o_workdir: /w6"] 7 "/w6" none 5
     (by decide) (by decide)).1 (by decide)⟩

/-! ## Claim C4 -/

def fsFour : FS :=
  { listdir := fun p =>
      if p = "/w4" then .ok ["7"]
      else if p = "/w4/7" then .ok ["README.m.README"]
      else .notFound
    isdir := fun p => p = "/w4/7"
    readLines := fun p =>
      if p = "log4" then .ok ["job_number: 7", "sge_o_workdir: /w4"]
      else if p = "/w4/7/README.m.README" then .ok ["Sub-Date: garbage"]
      else .error .notFound }

/-- C4: at this concrete world the README reached by ingestion carries a
`Sub-Date` value that does not parse; `datetime.strptime` raises
`ValueError`, and the ingestion call catches only `PermissionError` and
`FileNotFoundError` around the README parse, so the exception escapes
the ingestion call instead of the item being aborted with `False`. -/
theorem ingest_malformed_subdate_raises :
    parse_readme_lines ["Sub-Date: garbage"] = .error .valueError
    ∧ start_job_creation_process_from_joblogfile fsFour nowRef [] "log4" 5
      = .raised .valueError := by
  decide

/-! ## Claim C10 -/

theorem stepMainName_frame (st : RState) (line : String) :
    (stepMainName st line).info.info_block = st.info.info_block
    ∧ (stepMainName st line).reading_info_block = st.reading_info_block := by
  unfold stepMainName
  split <;> simp

theorem stepBaseRuns_frame (st : RState) (line : String) :
    (stepBaseRuns st line).info.info_block = st.info.info_block
    ∧ (stepBaseRuns st line).reading_info_block = st.reading_info_block := by
  unfold stepBaseRuns
  split <;> simp

theorem stepUsername_frame (st : RState) (line : String) :
    (stepUsername st line).info.info_block = st.info.info_block
    ∧ (stepUsername st line).reading_info_block = st.reading_info_block := by
  unfold stepUsername
  split <;> simp

theorem stepEmail_frame (st : RState) (line : String) :
    (stepEmail st line).info.info_block = st.info.info_block
    ∧ (stepEmail st line).reading_info_block = st.reading_info_block := by
  unfold stepEmail
  split <;> simp

theorem stepSolver_frame (st : RState) (line : String) :
    (stepSolver st line).info.info_block = st.info.info_block
    ∧ (stepSolver st line).reading_info_block = st.reading_info_block := by
  unfold stepSolver
  split <;> simp

theorem stepSubDate_frame (st st2 : RState) (line : String)
    (h : stepSubDate st line = .ok st2) :
    st2.info.info_block = st.info.info_block
    ∧ st2.reading_info_block = st.reading_info_block := by
  unfold stepSubDate at h
  repeat' split at h
  all_goals first
    | (injection h with h1; subst h1; simp)
    | simp at h

theorem stepInfoBlock_preserve (st : RState) (line : String)
    (h : st.reading_info_block = false ∨ substrOf headerMarker line = false) :
    (stepInfoBlock st line).info.info_block = st.info.info_block := by
  unfold stepInfoBlock
  cases hr : st.reading_info_block <;>
    cases hh : substrOf headerMarker line <;>
    cases hm : substrOf infoMarker line <;>
    simp_all

theorem stepInfoBlock_reading (st : RState) (line : String)
    (hm : substrOf infoMarker line = false)
    (hr : st.reading_info_block = false) :
    (stepInfoBlock st line).reading_info_block = false := by
  unfold stepInfoBlock
  rw [hr]
  cases hh : substrOf headerMarker line <;> simp_all

theorem readmeStep_preserve (st st2 : RState) (line : String)
    (hcond : st.reading_info_block = false
      ∨ substrOf headerMarker line = false)
    (h : readmeStep st line = .ok st2) :
    st2.info.info_block = st.info.info_block := by
  unfold readmeStep at h
  dsimp only at h
  rcases hsd :
      stepSubDate (stepEmail (stepUsername (stepInfoBlock
        (stepBaseRuns (stepMainName st line) line) line) line) line) line
    with e | st3
  · rw [hsd] at h
    simp at h
  · rw [hsd] at h
    simp only [Except.ok.injEq] at h
    subst h
    have hA := stepMainName_frame st line
    have hB := stepBaseRuns_frame (stepMainName st line) line
    have hI : (stepInfoBlock (stepBaseRuns (stepMainName st line) line)
        line).info.info_block
        = (stepBaseRuns (stepMainName st line) line).info.info_block := by
      apply stepInfoBlock_preserve
      rcases hcond with hc | hc
      · exact Or.inl (by rw [hB.2, hA.2, hc])
      · exact Or.inr hc
    have hU := stepUsername_frame (stepInfoBlock
      (stepBaseRuns (stepMainName st line) line) line) line
    have hE := stepEmail_frame (stepUsername (stepInfoBlock
      (stepBaseRuns (stepMainName st line) line) line) line) line
    have hS := stepSubDate_frame _ st3 line hsd
    have hV := stepSolver_frame st3 line
    rw [hV.1, hS.1, hE.1, hU.1, hI, hB.1, hA.1]

theorem readmeStep_reading (st st2 : RState) (line : String)
    (hm : substrOf infoMarker line = false)
    (hr : st.reading_info_block = false)
    (h : readmeStep st line = .ok st2) :
    st2.reading_info_block = false := by
  unfold readmeStep at h
  dsimp only at h
  rcases hsd :
      stepSubDate (stepEmail (stepUsername (stepInfoBlock
        (stepBaseRuns (stepMainName st line) line) line) line) line) line
    with e | st3
  · rw [hsd] at h
    simp at h
  · rw [hsd] at h
    simp only [Except.ok.injEq] at h
    subst h
    have hA := stepMainName_frame st line
    have hB := stepBaseRuns_frame (stepMainName st line) line
    have hI : (stepInfoBlock (stepBaseRuns (stepMainName st line) line)
        line).reading_info_block = false := by
      apply stepInfoBlock_reading _ _ hm
      rw [hB.2, hA.2, hr]
    have hU := stepUsername_frame (stepInfoBlock
      (stepBaseRuns (stepMainName st line) line) line) line
    have hE := stepEmail_frame (stepUsername (stepInfoBlock
      (stepBaseRuns (stepMainName st line) line) line) line) line
    have hS := stepSubDate_frame _ st3 line hsd
    have hV := stepSolver_frame st3 line
    rw [hV.2, hS.2, hE.2, hU.2, hI]

theorem readmeRun_no_marker (lines : List String) (st st2 : RState)
    (hall : ∀ l ∈ lines, substrOf infoMarker l = false)
    (hr : st.reading_info_block = false)
    (h : readmeRun st lines = .ok st2) :
    st2.reading_info_block = false
    ∧ st2.info.info_block = st.info.info_block := by
  induction lines generalizing st with
  | nil =>
    simp only [readmeRun, Except.ok.injEq] at h
    subst h
    exact ⟨hr, rfl⟩
  | cons l ls ih =>
    rw [readmeRun] at h
    rcases hstep : readmeStep st l with e | st3 <;> rw [hstep] at h
    · simp at h
    · have hm := hall l (List.mem_cons_self l ls)
      have h3r := readmeStep_reading st st3 l hm hr hstep
      have h3i := readmeStep_preserve st st3 l (Or.inl hr) hstep
      have := ih st3 (fun x hx => hall x (List.mem_cons_of_mem l hx)) h3r h
      exact ⟨this.1, this.2.trans h3i⟩

theorem readmeRun_no_header (lines : List String) (st st2 : RState)
    (hall : ∀ l ∈ lines, substrOf headerMarker l = false)
    (h : readmeRun st lines = .ok st2) :
    st2.info.info_block = st.info.info_block := by
  induction lines generalizing st with
  | nil =>
    simp only [readmeRun, Except.ok.injEq] at h
    subst h
    rfl
  | cons l ls ih =>
    rw [readmeRun] at h
    rcases hstep : readmeStep st l with e | st3 <;> rw [hstep] at h
    · simp at h
    · have hh := hall l (List.mem_cons_self l ls)
      have h3i := readmeStep_preserve st st3 l (Or.inr hh) hstep
      have := ih st3 (fun x hx => hall x (List.mem_cons_of_mem l hx)) h
      exact this.trans h3i

theorem readmeRun_append (st : RState) (xs ys : List String) :
    readmeRun st (xs ++ ys)
      = match readmeRun st xs with
        | .ok st2 => readmeRun st2 ys
        | .error e => .error e := by
  induction xs generalizing st with
  | nil => simp [readmeRun]
  | cons l ls ih =>
    rw [List.cons_append, readmeRun, readmeRun]
    rcases hstep : readmeStep st l with e | st3 <;> simp [ih]

/-- C10: when a README contains an `information      :` marker line that
is never followed by a `********Header********` line (no marker line
occurs before it and no header line after it), the map the parser
returns carries no `info_block` key, so the ingestion's required-keys
check fails. -/
theorem readme_unclosed_info_block (lines pre post : List String)
    (lm : String) (m : ReadmeInfo)
    (hsplit : lines = pre ++ lm :: post)
    (_hmark : substrOf infoMarker lm = true)
    (hpre : pre.all (fun l => ! substrOf infoMarker l) = true)
    (hpost : post.all (fun l => ! substrOf headerMarker l) = true)
    (hp : parse_readme_lines lines = .ok (some m)) :
    m.info_block = none ∧ required_keys_avaiable m = false := by
  have hpre2 : ∀ l ∈ pre, substrOf infoMarker l = false := by
    intro l hl
    have := List.all_eq_true.mp hpre l hl
    simpa using this
  have hpost2 : ∀ l ∈ post, substrOf headerMarker l = false := by
    intro l hl
    have := List.all_eq_true.mp hpost l hl
    simpa using this
  unfold parse_readme_lines at hp
  rcases hrun : readmeRun ⟨emptyReadmeInfo, false, ""⟩ lines with e | stf <;>
    rw [hrun] at hp
  · simp at hp
  · simp only [Except.ok.injEq] at hp
    have hm : m = stf.info := by
      by_cases he : stf.info = emptyReadmeInfo
      · rw [if_pos he] at hp
        simp at hp
      · rw [if_neg he] at hp
        simpa using hp.symm
    subst hm
    rw [hsplit, readmeRun_append] at hrun
    rcases h1 : readmeRun ⟨emptyReadmeInfo, false, ""⟩ pre with e1 | st1 <;>
      rw [h1] at hrun
    · simp at hrun
    · have hst1 := readmeRun_no_marker pre ⟨emptyReadmeInfo, false, ""⟩ st1
        hpre2 rfl h1
      simp only [readmeRun] at hrun
      rcases h2 : readmeStep st1 lm with e2 | st2 <;> rw [h2] at hrun
      · simp at hrun
      · have hst2 := readmeStep_preserve st1 st2 lm (Or.inl hst1.1) h2
        have hstf := readmeRun_no_header post st2 stf hpost2 hrun
        have hnone : stf.info.info_block = none := by
          rw [hstf, hst2, hst1.2]
          rfl
        refine ⟨hnone, ?_⟩
        simp [required_keys_avaiable, hnone]

theorem readme_unclosed_info_block_witness :
    (⟨some "m.key", none, none, none, none, none, none⟩ : ReadmeInfo).info_block
      = none
    ∧ required_keys_avaiable
        ⟨some "m.key", none, none, none, none, none, none⟩ = false :=
  readme_unclosed_info_block
    ["FILE: m.key", "information      : stuff", "more text"]
    ["FILE: m.key"] ["more text"] "information      : stuff"
    ⟨some "m.key", none, none, none, none, none, none⟩
    (by decide) (by decide) (by decide) (by decide) (by decide)

end CaeJobDiary
